import Mathlib

/-!
A shallow embedding of the HEIC-to-PNG converter (`src/components/HeicConverter.tsx`
and related revisions) together with proofs about its conversion pipeline.

Modelling conventions:
- JavaScript strings are embedded as `List Char`; byte buffers (`ArrayBuffer`/`Blob`
  contents) as `List Nat`.
- The two decode libraries (`heic-convert`, `heic2any`) are external collaborators;
  a backend is a function from the input file to either a decoded output buffer
  (`BackendResult.ok`) or a thrown error (`BackendResult.exn`).  A library call that
  returns a null/non-Blob result without throwing has the same control-flow effect
  as a thrown error (fall through to the next strategy), so both are covered by the
  two constructors together with the empty-output case of `ok`.
- `URL.createObjectURL` handles and React state are presentation-side and are not
  part of the embedding; a converted file keeps its derived name and output bytes.
- To make backend invocations observable, the orchestrator additionally returns the
  list of indices of the backends it invoked, in invocation order (index 0 is the
  first strategy).  The source logs these invocations to the console.
-/

namespace HeicToPng

/-- Byte buffers (`ArrayBuffer` / `Blob` contents) are lists of byte values. -/
abbrev Bytes := List Nat

/-- An input file as seen by `convertHeicToPng`: its name, its declared `size`
(the `File.size` property, checked before any bytes are read) and its contents. -/
structure InputFile where
  name : List Char
  size : Nat
  bytes : Bytes
deriving DecidableEq

/-- A successfully converted file (`ConvertedFile` in the source, minus the
presentation-only object URL): derived output name and PNG blob contents. -/
structure ConvertedFile where
  name : List Char
  blob : Bytes
deriving DecidableEq

/-- Result of invoking one decode library on a file: either a decoded output
buffer, or a thrown error carrying a message. -/
inductive BackendResult where
  | ok (output : Bytes)
  | exn (msg : List Char)
deriving DecidableEq

/-- A decode backend is an external collaborator: a function from the input
file to a `BackendResult`. -/
abbrev Backend := InputFile → BackendResult

/-- Outcome of `convertHeicToPng` for one file: a converted file, or a failure
carrying the thrown error message.  The source signals failure by throwing;
the per-file `try`/`catch` in `onDrop` turns that into a recorded failure. -/
inductive Outcome where
  | success (file : ConvertedFile)
  | failure (msg : List Char)
deriving DecidableEq

/-- The recognized lowercase `.heic` extension. -/
def extHeic : List Char := ['.', 'h', 'e', 'i', 'c']

/-- The recognized lowercase `.heif` extension. -/
def extHeif : List Char := ['.', 'h', 'e', 'i', 'f']

/-- The `.png` extension substituted for a recognized extension. -/
def extPng : List Char := ['.', 'p', 'n', 'g']

/-- Does `n` end, case-insensitively, with the (lowercase) extension `ext`?
This is the matching test of the anchored regex `/\.heic$/i` (resp. `heif`):
the last `ext.length` characters of `n`, lowercased, are exactly `ext`. -/
def lowerEndsWith (n ext : List Char) : Bool :=
  decide ((n.map Char.toLower).reverse.take ext.length = ext.reverse)

/-- JavaScript `name.replace(/\.EXT$/i, repl)` for a fixed extension `EXT`:
if the name ends (case-insensitively) with `ext`, drop those characters and
append `repl`; otherwise the name is returned unchanged. -/
def replaceSuffixCI (n ext repl : List Char) : List Char :=
  if lowerEndsWith n ext then n.take (n.length - ext.length) ++ repl else n

/-- Output-name derivation of the converter
(`file.name.replace(/\.heic$/i, '.png').replace(/\.heif$/i, '.png')`,
line 43 of `HeicConverter.tsx`). -/
def deriveName (n : List Char) : List Char :=
  replaceSuffixCI (replaceSuffixCI n extHeic extPng) extHeif extPng

/-- Does `n` end, case-insensitively, with `.hei`?  Used only by the variant
revision of the converter, whose regex is `/\.heic?$/i`. -/
def extHei : List Char := ['.', 'h', 'e', 'i']

/-- Output-name derivation of the 50 MB variant revision
(`file.name.replace(/\.heic?$/i, '.png').replace(/\.heif$/i, '.png')`,
line 425 of `HeicConverter.tsx`): the optional `c?` makes the regex also match
a trailing `.hei`. -/
def deriveNameVariant (n : List Char) : List Char :=
  replaceSuffixCI
    (if lowerEndsWith n extHeic then n.take (n.length - extHeic.length) ++ extPng
     else if lowerEndsWith n extHei then n.take (n.length - extHei.length) ++ extPng
     else n)
    extHeif extPng

/-- The file-size ceiling configured in the converter:
`const maxSize = 100 * 1024 * 1024` (100 MB).  The superseded 50 MB revision
used `50 * 1024 * 1024` instead. -/
def maxSize : Nat := 100 * 1024 * 1024

/-- Error message thrown when the declared size exceeds `maxSize`. -/
def msgTooLarge : List Char :=
  "File too large. Please use files smaller than 100MB.".data

/-- Error message thrown when every backend has failed. -/
def msgAllFailed : List Char :=
  "Both conversion libraries failed. The file may be corrupted or use an unsupported HEIC variant.".data

/-- Guidance appended when the error message mentions `invalid` or `corrupted`. -/
def guidanceValidFile : List Char :=
  " Please ensure this is a valid HEIC/HEIF image file from an iPhone or compatible camera.".data

/-- Guidance appended when the error message mentions `unsupported`. -/
def guidanceVariant : List Char :=
  " This HEIC variant might not be supported by current conversion libraries.".data

/-- Guidance appended when the error message mentions `WebAssembly`. -/
def guidanceBrowser : List Char :=
  " Please use a modern browser that supports WebAssembly (Chrome, Firefox, Safari, Edge).".data

/-- Keyword searched by the outer error handler. -/
def kwInvalid : List Char := "invalid".data

/-- Keyword searched by the outer error handler. -/
def kwCorrupted : List Char := "corrupted".data

/-- Keyword searched by the outer error handler. -/
def kwUnsupported : List Char := "unsupported".data

/-- Keyword searched by the outer error handler. -/
def kwWasm : List Char := "WebAssembly".data

/-- JavaScript `haystack.includes(pat)`: does `pat` occur as a contiguous
subsequence of the list? -/
def hasSub (pat : List Char) : List Char → Bool
  | [] => pat.isEmpty
  | c :: rest => pat.isPrefixOf (c :: rest) || hasSub pat rest

/-- The outer `catch` of `convertHeicToPng` (lines 90-107): the caught message
is re-thrown, with specific guidance appended when it contains one of the
recognized keywords. -/
def augmentMessage (msg : List Char) : List Char :=
  if hasSub kwInvalid msg || hasSub kwCorrupted msg then msg ++ guidanceValidFile
  else if hasSub kwUnsupported msg then msg ++ guidanceVariant
  else if hasSub kwWasm msg then msg ++ guidanceBrowser
  else msg

/-- Did this backend produce a usable result on `file`?  True exactly when it
returned (did not throw) a non-empty output buffer — the source accepts a
result only under `outputBuffer.byteLength > 0` (resp. `convertedBlob.size > 0`). -/
def backendSucceeds (b : Backend) (file : InputFile) : Bool :=
  match b file with
  | .ok out => decide (0 < out.length)
  | .exn _ => false

/-- The fallback chain of `convertHeicToPng` (lines 27-86): invoke each backend
in order; a thrown error or an empty output falls through to the next strategy;
the first non-empty output wins.  Returns the winning output (if any) together
with the indices of the backends invoked, in invocation order; `i` is the index
of the first backend of the remaining list. -/
def tryBackends (file : InputFile) : List Backend → Nat → Option Bytes × List Nat
  | [], _ => (none, [])
  | b :: bs, i =>
    match b file with
    | .ok out =>
      if 0 < out.length then (some out, [i])
      else
        let r := tryBackends file bs (i + 1)
        (r.1, i :: r.2)
    | .exn _ =>
      let r := tryBackends file bs (i + 1)
      (r.1, i :: r.2)

/-- Body of the outer `try` of `convertHeicToPng`, for an arbitrary ordered
backend list: reject oversized files before reading any bytes, then run the
fallback chain; if no backend produces output, fail with the fixed
all-strategies-failed message (line 88).  The second component records which
backends were invoked. -/
def convertCore (backends : List Backend) (file : InputFile) : Outcome × List Nat :=
  if file.size > maxSize then (.failure msgTooLarge, [])
  else
    match tryBackends file backends 0 with
    | (some out, as) => (.success ⟨deriveName file.name, out⟩, as)
    | (none, as) => (.failure msgAllFailed, as)

/-- The whole of `convertHeicToPng` (lines 17-109) with its two configured
backends, `heic-convert` first and `heic2any` second: the outer `try` body,
with every thrown error passing through the outer `catch`, which appends
keyword-triggered guidance before re-throwing. -/
def convertHeicToPng (hc h2a : Backend) (file : InputFile) : Outcome × List Nat :=
  match convertCore [hc, h2a] file with
  | (.success c, as) => (.success c, as)
  | (.failure m, as) => (.failure (augmentMessage m), as)

/-- The per-file loop of `onDrop` (lines 121-131): files are processed in
order; a success is pushed onto `successfulConversions`, a failure pushes the
file name onto `failedFiles`, and either way the loop continues with the next
file.  `conv` abstracts `convertHeicToPng` together with the per-file
`try`/`catch` that converts a thrown error into a recorded failure. -/
def processFiles (conv : InputFile → Outcome) : List InputFile → List ConvertedFile × List (List Char)
  | [] => ([], [])
  | f :: fs =>
    let rest := processFiles conv fs
    match conv f with
    | .success c => (c :: rest.1, rest.2)
    | .failure _ => (rest.1, f.name :: rest.2)

/-- Batch conversion with the two configured backends: the `onDrop` loop
driving `convertHeicToPng` on each dropped file. -/
def runBatch (hc h2a : Backend) (files : List InputFile) :
    List ConvertedFile × List (List Char) :=
  processFiles (fun f => (convertHeicToPng hc h2a f).1) files

/-- Per-outcome projection used to characterize the batch loop. -/
def toSuccess : Outcome → Option ConvertedFile
  | .success c => some c
  | .failure _ => none

/-- Boolean failure test on an outcome. -/
def isFailure : Outcome → Bool
  | .success _ => false
  | .failure _ => true

/-- The brand codes recognized by the specified `FormatValidator`, plus
`unknown` for everything else. -/
inductive ContainerSignature where
  | heic | heix | hevc | hevx | mif1 | unknown
deriving DecidableEq

namespace FormatValidator

/-- ASCII bytes of the box-type marker `ftyp`. -/
def ftypMarker : Bytes := [102, 116, 121, 112]

/-- ASCII bytes of the brand code `heic`. -/
def brandHeic : Bytes := [104, 101, 105, 99]

/-- ASCII bytes of the brand code `heix`. -/
def brandHeix : Bytes := [104, 101, 105, 120]

/-- ASCII bytes of the brand code `hevc`. -/
def brandHevc : Bytes := [104, 101, 118, 99]

/-- ASCII bytes of the brand code `hevx`. -/
def brandHevx : Bytes := [104, 101, 118, 120]

/-- ASCII bytes of the brand code `mif1`. -/
def brandMif1 : Bytes := [109, 105, 102, 49]

/-- Modelled from the spec: the brand-code table of `FormatValidator` (§4.1).
No signature-validation code exists in the `src/` snapshot — the spec describes
it as the container gate of the pipeline — so the classification of the four
brand bytes is taken from the spec's enumerated brand codes. -/
def brandOf (b : Bytes) : ContainerSignature :=
  if b = brandHeic then .heic
  else if b = brandHeix then .heix
  else if b = brandHevc then .hevc
  else if b = brandHevx then .hevx
  else if b = brandMif1 then .mif1
  else .unknown

/-- Modelled from the spec: `FormatValidator.validate` (§4.1).  No
signature-validation code exists in the `src/` snapshot, so this follows the
spec's words: a buffer shorter than 12 bytes is `unknown`; otherwise bytes at
offsets 4-7 must equal the ASCII marker `ftyp`, and bytes 8-11 are matched
against the known brand codes, `unknown` when no brand matches. -/
def validate (bytes : Bytes) : ContainerSignature :=
  if bytes.length < 12 then .unknown
  else if (bytes.drop 4).take 4 = ftypMarker then brandOf ((bytes.drop 8).take 4)
  else .unknown

end FormatValidator

/-- Output-name derivation of the earliest revision (`part_002`, line 28): only
the `/\.heic?$/i` replace exists, so a `.heif` name passes through unchanged. -/
def deriveNameOriginal (n : List Char) : List Char :=
  if lowerEndsWith n extHeic then n.take (n.length - extHeic.length) ++ extPng
  else if lowerEndsWith n extHei then n.take (n.length - extHei.length) ++ extPng
  else n

/-- Concrete small file (name `a.heic`, 6 declared bytes) used as a witness input. -/
def demoFile : InputFile := ⟨['a', '.', 'h', 'e', 'i', 'c'], 6, [0, 0, 0]⟩

/-- Concrete file whose declared size `100 * 1024 * 1024 + 1` exceeds `maxSize`. -/
def demoBig : InputFile := ⟨['b', '.', 'h', 'e', 'i', 'c'], 104857601, []⟩

/-- Concrete 10-byte garbage file: too short for any container signature. -/
def demoGarbage : InputFile := ⟨['g'], 10, [1, 2, 3, 4, 5, 6, 7, 8, 9, 0]⟩

/-- A minimal valid 12-byte HEIC header: box size, `ftyp`, brand `heic`. -/
def demoHeader : Bytes := [0, 0, 0, 24, 102, 116, 121, 112, 104, 101, 105, 99]

/-- A backend that always throws with reason `X`. -/
def demoFailX : Backend := fun _ => .exn ['X']

/-- A backend that always throws with reason `Y`. -/
def demoFailY : Backend := fun _ => .exn ['Y']

/-- A backend that always decodes successfully to the one-byte buffer `[42]`. -/
def demoOk : Backend := fun _ => .ok [42]

/-- A later backend that would also succeed (output `[7]`) if it were invoked. -/
def demoLate : Backend := fun _ => .ok [7]

/-- A backend that returns without throwing but with an empty output buffer. -/
def demoEmpty : Backend := fun _ => .ok []

/-- The name `photo.HEIC`. -/
def photoHEIC : List Char := ['p', 'h', 'o', 't', 'o', '.', 'H', 'E', 'I', 'C']

/-- The name `photo.png`. -/
def photoPng : List Char := ['p', 'h', 'o', 't', 'o', '.', 'p', 'n', 'g']

/-- The name `x.png.heic`. -/
def xPngHeic : List Char := ['x', '.', 'p', 'n', 'g', '.', 'h', 'e', 'i', 'c']

/-- The name `x.png.png`. -/
def xPngPng : List Char := ['x', '.', 'p', 'n', 'g', '.', 'p', 'n', 'g']

/-- The name `doc.pdf`, which carries no recognized extension. -/
def docPdf : List Char := ['d', 'o', 'c', '.', 'p', 'd', 'f']

/-! Theorems.  First the name-derivation lemmas, then the orchestrator, the
batch loop and the signature validator. -/

/-- A name that ends in `.png` cannot also end, case-insensitively, in `.heif`:
the final characters differ.  Hence the second `replace` of `deriveName` never
fires once the first one has fired. -/
theorem endsPng_not_heif (m : List Char) :
    lowerEndsWith (m ++ extPng) extHeif = false := by
  have hmap : extPng.map Char.toLower = extPng := by decide
  unfold lowerEndsWith
  rw [List.map_append, hmap, List.reverse_append]
  apply decide_eq_false
  intro hEq
  have hhead : some 'g' = some 'f' := congrArg List.head? hEq
  exact absurd hhead (by decide)

/-- A name ending case-insensitively in `.heif` does not end in `.heic`. -/
theorem heif_not_heic (n : List Char) (h : lowerEndsWith n extHeif = true) :
    lowerEndsWith n extHeic = false := by
  have hT := of_decide_eq_true h
  unfold lowerEndsWith at hT
  unfold lowerEndsWith
  apply decide_eq_false
  intro hC
  rw [show extHeif.length = 5 from rfl] at hT
  rw [show extHeic.length = 5 from rfl] at hC
  rw [hT] at hC
  exact absurd hC (by decide)

/-- C4: for every name that ends, case-insensitively, in the recognized
extension `.heic` or `.heif`, the derived output name is the original name with
exactly those five trailing characters replaced by `.png`: the prefix is
preserved verbatim and the replacement happens exactly once (a second
replacement is impossible because the result ends in `.png`). -/
theorem deriveName_replaces_recognized_suffix (n : List Char)
    (h : lowerEndsWith n extHeic = true ∨ lowerEndsWith n extHeif = true) :
    deriveName n = n.take (n.length - 5) ++ extPng := by
  unfold deriveName replaceSuffixCI
  rcases h with h | h
  · rw [if_pos h]
    have h2 : ¬ (lowerEndsWith (n.take (n.length - extHeic.length) ++ extPng) extHeif = true) := by
      simp [endsPng_not_heif]
    rw [if_neg h2]
    rfl
  · have hc : ¬ (lowerEndsWith n extHeic = true) := by simp [heif_not_heic n h]
    rw [if_neg hc, if_pos h]
    rfl

/-- C4 witness: `photo.HEIC` converts to `photo.png`, and `x.png.heic` to
`x.png.png`. -/
theorem deriveName_replaces_recognized_suffix_witness :
    deriveName photoHEIC = photoPng ∧ deriveName xPngHeic = xPngPng := by
  constructor
  · exact (deriveName_replaces_recognized_suffix photoHEIC (Or.inl (by decide))).trans (by decide)
  · exact (deriveName_replaces_recognized_suffix xPngHeic (Or.inl (by decide))).trans (by decide)

/-- C10: a name that does not end, case-insensitively, in `.heic` or `.heif`
is returned unchanged by the derivation — in particular nothing forces the
output name to end in `.png`. -/
theorem deriveName_unrecognized_unchanged (n : List Char)
    (h1 : lowerEndsWith n extHeic = false) (h2 : lowerEndsWith n extHeif = false) :
    deriveName n = n := by
  have h1' : ¬ (lowerEndsWith n extHeic = true) := by simp [h1]
  have h2' : ¬ (lowerEndsWith n extHeif = true) := by simp [h2]
  unfold deriveName replaceSuffixCI
  rw [if_neg h1', if_neg h2']

/-- C10 witness: `doc.pdf` passes through unchanged, and the result does not
end in `.png`. -/
theorem deriveName_unrecognized_unchanged_witness :
    deriveName docPdf = docPdf ∧ lowerEndsWith docPdf extPng = false :=
  ⟨deriveName_unrecognized_unchanged docPdf (by decide) (by decide), by decide⟩

/-- The 50 MB variant's regex `\.heic?$` also rewrites a bare `.hei` suffix:
`p.hei` becomes `p.png` there, while the primary derivation leaves it alone. -/
theorem deriveNameVariant_hei_divergence :
    deriveNameVariant ['p', '.', 'h', 'e', 'i'] = ['p', '.', 'p', 'n', 'g']
      ∧ deriveName ['p', '.', 'h', 'e', 'i'] = ['p', '.', 'h', 'e', 'i'] :=
  ⟨by decide, by decide⟩

/-- The earliest revision never rewrites `.heif` names, unlike the primary
derivation. -/
theorem deriveNameOriginal_heif_divergence :
    deriveNameOriginal ['a', '.', 'h', 'e', 'i', 'f'] = ['a', '.', 'h', 'e', 'i', 'f']
      ∧ deriveName ['a', '.', 'h', 'e', 'i', 'f'] = ['a', '.', 'p', 'n', 'g'] :=
  ⟨by decide, by decide⟩

/-- Shifting the start of an index range by one step. -/
theorem range_map_shift (j k : Nat) :
    (List.range (j + 1)).map (fun m => k + m)
      = k :: (List.range j).map (fun m => k + 1 + m) := by
  rw [List.range_succ_eq_map, List.map_cons, List.map_map]
  congr 1
  apply List.map_congr_left
  intro m _
  simp only [Function.comp_apply]
  omega

/-- The fallback chain stops at the first backend that yields non-empty
output: if backend `j` is the first to succeed, the chain starting at index
`k` invokes exactly backends `k, k+1, …, k+j` and returns backend `j`'s
output. -/
theorem tryBackends_stop (file : InputFile) :
    ∀ (bs : List Backend) (j : Nat) (hj : j < bs.length) (out : Bytes) (k : Nat),
      (bs.get ⟨j, hj⟩) file = .ok out → 0 < out.length →
      (∀ i (hi : i < j), backendSucceeds (bs.get ⟨i, Nat.lt_trans hi hj⟩) file = false) →
      tryBackends file bs k = (some out, (List.range (j + 1)).map (fun m => k + m))
  | [], j, hj, out, k => by
    intro _ _ _
    exact absurd hj (Nat.not_lt_zero j)
  | b :: bs, 0, hj, out, k => by
    intro hok hlen _
    have hok' : b file = .ok out := hok
    simp only [tryBackends, hok']
    rw [if_pos hlen]
    simp [List.range_succ]
  | b :: bs, j + 1, hj, out, k => by
    intro hok hlen hbefore
    have hb0 : backendSucceeds b file = false := hbefore 0 (Nat.succ_pos j)
    have ih := tryBackends_stop file bs j (Nat.lt_of_succ_lt_succ hj) out (k + 1)
      hok hlen (fun i hi => hbefore (i + 1) (Nat.succ_lt_succ hi))
    unfold backendSucceeds at hb0
    cases hcase : b file with
    | ok o =>
      rw [hcase] at hb0
      have hb0' : decide (0 < o.length) = false := hb0
      have hno : ¬ (0 < o.length) := of_decide_eq_false hb0'
      simp only [tryBackends, hcase]
      rw [if_neg hno, ih, range_map_shift (j + 1) k]
    | exn m =>
      simp only [tryBackends, hcase]
      rw [ih, range_map_shift (j + 1) k]

/-- C1: for every configured backend list and every input file within the size
ceiling, if backend `j` is the first backend whose decode succeeds (all
earlier ones fail) then the orchestrator returns `Success` carrying backend
`j`'s output — and the invoked backends are exactly `0, …, j` in order, so no
backend positioned after the first successful one is ever invoked. -/
theorem convertCore_first_success_wins (bs : List Backend) (file : InputFile) (j : Nat)
    (hj : j < bs.length) (out : Bytes)
    (hsize : ¬ file.size > maxSize)
    (hok : (bs.get ⟨j, hj⟩) file = .ok out) (hlen : 0 < out.length)
    (hbefore : ∀ i (hi : i < j), backendSucceeds (bs.get ⟨i, Nat.lt_trans hi hj⟩) file = false) :
    convertCore bs file = (.success ⟨deriveName file.name, out⟩, List.range (j + 1)) := by
  have h := tryBackends_stop file bs j hj out 0 hok hlen hbefore
  unfold convertCore
  rw [if_neg hsize, h]
  have hmap : (List.range (j + 1)).map (fun m => 0 + m) = List.range (j + 1) := by
    simp
  rw [hmap]

/-- C1 witness: with the chain [always-throws, succeeds with `[42]`,
would-succeed], the outcome is the second backend's output and the invoked
backends are exactly `[0, 1]` — the third backend is never invoked. -/
theorem convertCore_first_success_wins_witness :
    convertCore [demoFailX, demoOk, demoLate] demoFile
      = (.success ⟨deriveName demoFile.name, [42]⟩, List.range 2) :=
  convertCore_first_success_wins [demoFailX, demoOk, demoLate] demoFile 1 (by decide) [42]
    (by decide) rfl (by decide)
    (fun i hi => by
      have h0 : i = 0 := Nat.lt_one_iff.mp hi
      subst h0
      rfl)

/-- C3: a file whose declared size exceeds the configured ceiling (the
source's `maxSize`, 100 MB) is rejected with the file-too-large error, and the
invoked-backend list is empty — no backend runs.  The theorem quantifies over
all contents `file.bytes`, so the rejection does not depend on the bytes. -/
theorem oversized_rejected_without_backends (hc h2a : Backend) (file : InputFile)
    (h : file.size > maxSize) :
    convertHeicToPng hc h2a file = (.failure msgTooLarge, []) := by
  have hcc : convertCore [hc, h2a] file = (.failure msgTooLarge, []) := by
    unfold convertCore
    rw [if_pos h]
  unfold convertHeicToPng
  rw [hcc]
  have haug : augmentMessage msgTooLarge = msgTooLarge := by decide
  simp [haug]

/-- C3 witness: a file of declared size `100 MB + 1` is rejected with no
backend invoked, even though both backends would have been reachable. -/
theorem oversized_rejected_without_backends_witness :
    convertHeicToPng demoFailX demoFailY demoBig = (.failure msgTooLarge, []) :=
  oversized_rejected_without_backends demoFailX demoFailY demoBig (by decide)

/-- If the fallback chain reports a winning output, that output is non-empty:
the chain only accepts a result under the source's `byteLength > 0` check. -/
theorem tryBackends_sound (file : InputFile) :
    ∀ (bs : List Backend) (k : Nat) (out : Bytes),
      (tryBackends file bs k).1 = some out → 0 < out.length
  | [], k, out => by
    intro h
    simp [tryBackends] at h
  | b :: bs, k, out => by
    intro h
    simp only [tryBackends] at h
    cases hcase : b file with
    | ok o =>
      simp only [hcase] at h
      by_cases hl : 0 < o.length
      · rw [if_pos hl] at h
        simp at h
        exact h ▸ hl
      · rw [if_neg hl] at h
        exact tryBackends_sound file bs (k + 1) out h
    | exn m =>
      simp only [hcase] at h
      exact tryBackends_sound file bs (k + 1) out h

/-- A `Success` outcome of the core conversion carries non-empty output. -/
theorem convertCore_success_nonempty (bs : List Backend) (file : InputFile)
    (c : ConvertedFile) (as : List Nat)
    (h : convertCore bs file = (.success c, as)) : c.blob ≠ [] := by
  unfold convertCore at h
  by_cases hs : file.size > maxSize
  · rw [if_pos hs] at h
    simp at h
  · rw [if_neg hs] at h
    cases htb : tryBackends file bs 0 with
    | mk o as' =>
      simp only [htb] at h
      cases o with
      | none => simp at h
      | some out =>
        simp only [Prod.mk.injEq, Outcome.success.injEq] at h
        obtain ⟨h1, -⟩ := h
        have hlen := tryBackends_sound file bs 0 out (by rw [htb])
        rw [← h1]
        exact List.ne_nil_of_length_pos hlen

/-- A success of `convertHeicToPng` is a success of the core conversion: the
outer error handler only rewrites failure messages. -/
theorem convertHeicToPng_success (hc h2a : Backend) (file : InputFile)
    (c : ConvertedFile) (as : List Nat)
    (h : convertHeicToPng hc h2a file = (.success c, as)) :
    convertCore [hc, h2a] file = (.success c, as) := by
  unfold convertHeicToPng at h
  cases hcc : convertCore [hc, h2a] file with
  | mk o as' =>
    simp only [hcc] at h
    cases o with
    | success c' =>
      exact h
    | failure m =>
      simp at h

/-- The outer error handler does not change which backends were invoked. -/
theorem convertHeicToPng_snd (hc h2a : Backend) (file : InputFile) :
    (convertHeicToPng hc h2a file).2 = (convertCore [hc, h2a] file).2 := by
  unfold convertHeicToPng
  cases hcc : convertCore [hc, h2a] file with
  | mk o as' => cases o <;> rfl

/-- Below the size ceiling, the invoked-backend record of the core conversion
is the record of the fallback chain. -/
theorem convertCore_snd (bs : List Backend) (file : InputFile)
    (hs : ¬ file.size > maxSize) :
    (convertCore bs file).2 = (tryBackends file bs 0).2 := by
  unfold convertCore
  rw [if_neg hs]
  cases htb : tryBackends file bs 0 with
  | mk o as => cases o <;> rfl

/-- A one-element fallback chain always records exactly its own index. -/
theorem tryBackends_single_attempts (file : InputFile) (b : Backend) (k : Nat) :
    (tryBackends file [b] k).2 = [k] := by
  cases hb : b file with
  | ok o =>
    by_cases hl : 0 < o.length
    · simp [tryBackends, hb, hl]
    · simp [tryBackends, hb, hl]
  | exn m => simp [tryBackends, hb]

/-- C8: an empty decode result is never reported as success.  First, every
`Success` outcome of `convertHeicToPng` carries non-empty output bytes.
Second, a first backend that returns an empty (zero-byte) buffer is treated
as that backend's failure: the orchestrator moves on and invokes the second
backend. -/
theorem success_blob_nonempty (hc h2a : Backend) (file : InputFile) :
    (∀ (c : ConvertedFile) (as : List Nat),
        convertHeicToPng hc h2a file = (.success c, as) → c.blob ≠ [])
    ∧ (¬ file.size > maxSize → hc file = .ok [] →
        1 ∈ (convertHeicToPng hc h2a file).2) := by
  constructor
  · intro c as h
    exact convertCore_success_nonempty [hc, h2a] file c as
      (convertHeicToPng_success hc h2a file c as h)
  · intro hs hemp
    rw [convertHeicToPng_snd, convertCore_snd [hc, h2a] file hs]
    have h2 := tryBackends_single_attempts file h2a 1
    have h01 : (tryBackends file [hc, h2a] 0).2 = 0 :: (tryBackends file [h2a] 1).2 := by
      simp [tryBackends, hemp]
    rw [h01, h2]
    simp

/-- C8 witness: a first backend returning a zero-byte buffer is skipped and
the second backend is invoked on the file. -/
theorem success_blob_nonempty_witness :
    1 ∈ (convertHeicToPng demoEmpty demoOk demoFile).2 :=
  (success_blob_nonempty demoEmpty demoOk demoFile).2 (by decide) rfl

/-- With two failing backends the fallback chain records both attempts, in
order, and yields no output. -/
theorem tryBackends_allFail_two (file : InputFile) (hc h2a : Backend)
    (h1 : backendSucceeds hc file = false) (h2 : backendSucceeds h2a file = false) :
    tryBackends file [hc, h2a] 0 = (none, [0, 1]) := by
  unfold backendSucceeds at h1 h2
  cases hc1 : hc file with
  | ok o =>
    rw [hc1] at h1
    have h1' : decide (0 < o.length) = false := h1
    have hno : ¬ (0 < o.length) := of_decide_eq_false h1'
    cases hc2 : h2a file with
    | ok o2 =>
      rw [hc2] at h2
      have h2' : decide (0 < o2.length) = false := h2
      have hno2 : ¬ (0 < o2.length) := of_decide_eq_false h2'
      simp [tryBackends, hc1, hc2, hno, hno2]
    | exn m2 => simp [tryBackends, hc1, hc2, hno]
  | exn m =>
    cases hc2 : h2a file with
    | ok o2 =>
      rw [hc2] at h2
      have h2' : decide (0 < o2.length) = false := h2
      have hno2 : ¬ (0 < o2.length) := of_decide_eq_false h2'
      simp [tryBackends, hc1, hc2, hno2]
    | exn m2 => simp [tryBackends, hc1, hc2]

set_option maxRecDepth 40000 in
/-- When both configured backends fail on a file within the size ceiling, the
converter rejects with the fixed all-strategies-failed message — the message
of line 88 with the `corrupted`-keyword guidance appended by the outer
handler — and records both backend attempts. -/
theorem convert_allFail (hc h2a : Backend) (file : InputFile)
    (hs : ¬ file.size > maxSize)
    (h1 : backendSucceeds hc file = false) (h2 : backendSucceeds h2a file = false) :
    convertHeicToPng hc h2a file = (.failure (msgAllFailed ++ guidanceValidFile), [0, 1]) := by
  have htb := tryBackends_allFail_two file hc h2a h1 h2
  have hcc : convertCore [hc, h2a] file = (.failure msgAllFailed, [0, 1]) := by
    unfold convertCore
    rw [if_neg hs, htb]
  unfold convertHeicToPng
  rw [hcc]
  have haug : augmentMessage msgAllFailed = msgAllFailed ++ guidanceValidFile := by decide
  simp [haug]

set_option maxRecDepth 40000 in
/-- C7 counterexample: two backends fail with the distinct reasons `X` and
`Y`, yet the resulting failure message is the fixed text of line 88 plus the
appended guidance — it contains neither `X` nor `Y`, so the message does not
aggregate (or even mention) the individual backend failure reasons. -/
theorem allFailed_message_not_aggregated :
    (convertHeicToPng demoFailX demoFailY demoGarbage).1
        = .failure (msgAllFailed ++ guidanceValidFile)
      ∧ hasSub ['X'] (msgAllFailed ++ guidanceValidFile) = false
      ∧ hasSub ['Y'] (msgAllFailed ++ guidanceValidFile) = false :=
  ⟨by decide, by decide, by decide⟩

/-- C7 amended: when every backend fails, the converter fails with one fixed
message — `Both conversion libraries failed...` plus the guidance appended
because that text contains `corrupted` — independent of the individual
backends' failure reasons, which are only logged; no `EnvironmentUnsupported`
hint is surfaced.  Both attempts are recorded. -/
theorem allFailed_fixed_message (hc h2a : Backend) (file : InputFile)
    (hs : ¬ file.size > maxSize)
    (h1 : backendSucceeds hc file = false) (h2 : backendSucceeds h2a file = false) :
    convertHeicToPng hc h2a file = (.failure (msgAllFailed ++ guidanceValidFile), [0, 1]) :=
  convert_allFail hc h2a file hs h1 h2

/-- C7 amended witness: concrete failing backends with reasons `X` and `Y` on
a small file produce exactly the fixed message and the attempt record. -/
theorem allFailed_fixed_message_witness :
    convertHeicToPng demoFailX demoFailY demoFile
      = (.failure (msgAllFailed ++ guidanceValidFile), [0, 1]) :=
  allFailed_fixed_message demoFailX demoFailY demoFile (by decide) rfl rfl

/-- C6 counterexample: the 10-byte garbage buffer is classified `unknown` by
the (spec-modelled) `FormatValidator`, yet `convertHeicToPng` records two
backend attempts on it — not zero — because the source performs no signature
validation at all. -/
theorem no_signature_gate_counterexample :
    FormatValidator.validate demoGarbage.bytes = .unknown
      ∧ (convertHeicToPng demoFailX demoFailY demoGarbage).2 = [0, 1] :=
  ⟨by decide, by decide⟩

/-- C6 amended: the converter has no signature gate.  A file within the size
ceiling whose bytes `FormatValidator` classifies as `unknown` still has every
backend attempted on it, and when all backends fail the outcome is the generic
all-strategies-failed failure, not an invalid-format rejection. -/
theorem unknown_signature_still_attempts_backends (hc h2a : Backend) (file : InputFile)
    (hs : ¬ file.size > maxSize)
    (_hu : FormatValidator.validate file.bytes = .unknown)
    (h1 : backendSucceeds hc file = false) (h2 : backendSucceeds h2a file = false) :
    (convertHeicToPng hc h2a file).2 = [0, 1]
      ∧ (convertHeicToPng hc h2a file).1 = .failure (msgAllFailed ++ guidanceValidFile) := by
  have h := convert_allFail hc h2a file hs h1 h2
  rw [h]
  exact ⟨rfl, rfl⟩

/-- C6 amended witness: the garbage file with an empty-output backend and a
throwing backend — both attempts are recorded and the failure is the generic
one. -/
theorem unknown_signature_still_attempts_backends_witness :
    (convertHeicToPng demoEmpty demoFailY demoGarbage).2 = [0, 1]
      ∧ (convertHeicToPng demoEmpty demoFailY demoGarbage).1
          = .failure (msgAllFailed ++ guidanceValidFile) :=
  unknown_signature_still_attempts_backends demoEmpty demoFailY demoGarbage
    (by decide) (by decide) rfl rfl

/-- C2: the batch loop produces, for each input file in original order,
exactly one outcome — the successes are the in-order converted files of the
inputs on which `conv` succeeds, and the failure names are the in-order names
of the inputs on which it fails.  Each file's contribution depends only on
`conv` applied to that file, so one file's failure neither prevents later
files from being attempted nor discards outcomes already collected. -/
theorem processFiles_characterization (conv : InputFile → Outcome) (files : List InputFile) :
    processFiles conv files
      = (files.filterMap (fun f => toSuccess (conv f)),
         (files.filter (fun f => isFailure (conv f))).map InputFile.name) := by
  induction files with
  | nil => rfl
  | cons f fs ih =>
    simp only [processFiles]
    rw [ih]
    cases hc : conv f with
    | success c => simp [toSuccess, isFailure, hc, List.filterMap_cons, List.filter_cons]
    | failure m => simp [toSuccess, isFailure, hc, List.filterMap_cons, List.filter_cons]

/-- C9: every input file of a batch lands in exactly one of the success list
and the failed list, so the succeeded count plus the failed count equals the
number of input files. -/
theorem batch_counts_partition (conv : InputFile → Outcome) (files : List InputFile) :
    (processFiles conv files).1.length + (processFiles conv files).2.length
      = files.length := by
  induction files with
  | nil => rfl
  | cons f fs ih =>
    simp only [processFiles]
    cases hc : conv f with
    | success c =>
      simp only [List.length_cons]
      omega
    | failure m =>
      simp only [List.length_cons]
      omega

/-- C5: the spec-modelled `FormatValidator.validate` classifies exactly as
specified — any buffer shorter than 12 bytes is `unknown` (and the function is
total, so no out-of-bounds access exists); a buffer of at least 12 bytes with
the ASCII marker `ftyp` at offsets 4-7 is classified by its brand bytes at
offsets 8-11, where each of the five recognized brand codes maps to its brand
and every other 4-byte value maps to `unknown`; and a long-enough buffer
without the `ftyp` marker is `unknown`. -/
theorem validate_spec :
    (∀ bytes : Bytes, bytes.length < 12 → FormatValidator.validate bytes = .unknown)
    ∧ (∀ bytes : Bytes, ¬ bytes.length < 12 →
        (bytes.drop 4).take 4 = FormatValidator.ftypMarker →
        FormatValidator.validate bytes = FormatValidator.brandOf ((bytes.drop 8).take 4))
    ∧ (∀ bytes : Bytes, ¬ bytes.length < 12 →
        (bytes.drop 4).take 4 ≠ FormatValidator.ftypMarker →
        FormatValidator.validate bytes = .unknown)
    ∧ (FormatValidator.brandOf FormatValidator.brandHeic = .heic
        ∧ FormatValidator.brandOf FormatValidator.brandHeix = .heix
        ∧ FormatValidator.brandOf FormatValidator.brandHevc = .hevc
        ∧ FormatValidator.brandOf FormatValidator.brandHevx = .hevx
        ∧ FormatValidator.brandOf FormatValidator.brandMif1 = .mif1)
    ∧ (∀ b : Bytes, b ≠ FormatValidator.brandHeic → b ≠ FormatValidator.brandHeix →
        b ≠ FormatValidator.brandHevc → b ≠ FormatValidator.brandHevx →
        b ≠ FormatValidator.brandMif1 → FormatValidator.brandOf b = .unknown) := by
  refine ⟨?_, ?_, ?_, by decide, ?_⟩
  · intro bytes h
    unfold FormatValidator.validate
    rw [if_pos h]
  · intro bytes h hm
    unfold FormatValidator.validate
    rw [if_neg h, if_pos hm]
  · intro bytes h hm
    unfold FormatValidator.validate
    rw [if_neg h, if_neg hm]
  · intro b h1 h2 h3 h4 h5
    unfold FormatValidator.brandOf
    rw [if_neg h1, if_neg h2, if_neg h3, if_neg h4, if_neg h5]

/-- C5 witness: a minimal `ftyp`/`heic` header is classified `heic`, and the
10-byte garbage buffer is classified `unknown`. -/
theorem validate_spec_witness :
    FormatValidator.validate demoHeader = .heic
      ∧ FormatValidator.validate demoGarbage.bytes = .unknown := by
  constructor
  · exact (validate_spec.2.1 demoHeader (by decide) (by decide)).trans (by decide)
  · exact validate_spec.1 demoGarbage.bytes (by decide)

end HeicToPng
